import Mathlib

/-!
Formal model of the asyncLio-bot orchestration layer (a Lichess bot client):
shallow embedding of the game manager, per-game loop, server client retry
policy, matchmaker and opening-book logic, with theorems about the claimed
behaviours.  Each definition is a direct translation of the corresponding
Python code; doc comments point to the source file and function.
-/

namespace AsyncLio

/-! ## enums.py -/

/-- Source `enums.GameStatus`: the status values reported by the server. -/
inductive GameStatus where
  | CREATED
  | STARTED
  | ABORTED
  | MATE
  | RESIGN
  | STALEMATE
  | TIMEOUT
  | DRAW
  | OUT_OF_TIME
  | CHEAT
  | NO_START
  | UNKNOWN_FINISH
  | VARIANT_END
deriving DecidableEq, Repr

/-- Source `enums.DeclineReason`: the decline reasons. -/
inductive DeclineReason where
  | GENERIC
  | LATER
  | TOO_FAST
  | TOO_SLOW
  | TIME_CONTROL
  | RATED
  | CASUAL
  | STANDARD
  | VARIANT
  | NO_BOT
  | ONLY_BOT
deriving DecidableEq, Repr

/-- Source `enums.DeclineReason` member values: the short string codes the
server understands. -/
def DeclineReason.code : DeclineReason → String
  | .GENERIC => "generic"
  | .LATER => "later"
  | .TOO_FAST => "tooFast"
  | .TOO_SLOW => "tooSlow"
  | .TIME_CONTROL => "timeControl"
  | .RATED => "rated"
  | .CASUAL => "casual"
  | .STANDARD => "standard"
  | .VARIANT => "variant"
  | .NO_BOT => "noBot"
  | .ONLY_BOT => "onlyBot"

/-! ## game_manager.py: challenge acceptance policy -/

/-- The `challenger` object of an incoming challenge event (may be absent for
anonymous challengers). -/
structure ChallengerInfo where
  name : String
  title : String
  rating : Option ℤ
deriving DecidableEq, Repr

/-- The `destUser` object of an incoming challenge event. -/
structure DestUserInfo where
  rating : Option ℤ
deriving DecidableEq, Repr

/-- The fields of an incoming `challenge` account-stream event that
`GameManager.on_challenge` and `GameManager.check_decline_reason` read. -/
structure ChallengeEvent where
  id : String
  challenger : Option ChallengerInfo
  destUser : Option DestUserInfo
  rated : Bool
  variantKey : String
  speed : String
  tcLimit : ℤ
  tcIncrement : ℤ
deriving DecidableEq, Repr

/-- The `CONFIG["challenge"]` section, with the defaults that
`GameManager.check_decline_reason` supplies via `.get`. -/
structure ChallengeConfig where
  enabled : Bool
  modes : List String
  opponents : List String
  variants : List String
  time_controls : List String
  min_increment : ℤ
  max_increment : ℤ
  min_initial : ℤ
  max_initial : ℤ
  max_bot_rating_diff : ℤ
  max_human_rating_diff : ℤ
deriving DecidableEq, Repr

/-- Source `GameManager.check_decline_reason` (game_manager.py lines 155-224):
first failing check, in source order, determines the decline reason; `none`
means accept. -/
def check_decline_reason (cfg : ChallengeConfig) (e : ChallengeEvent) :
    Option DeclineReason :=
  if ¬ cfg.enabled then some .GENERIC
  else if e.rated = true ∧ "rated" ∉ cfg.modes then some .CASUAL
  else if e.rated = false ∧ "casual" ∉ cfg.modes then some .RATED
  else if e.variantKey ∉ cfg.variants then
    some (if cfg.variants = ["standard"] then .STANDARD else .VARIANT)
  else
    let is_bot : Bool := match e.challenger with
      | some c => c.title == "BOT"
      | none => false
    let their_rating : Option ℤ := match e.challenger with
      | some c => c.rating
      | none => none
    let my_rating : Option ℤ := match e.destUser with
      | some d => d.rating
      | none => none
    if is_bot = true ∧ "bot" ∉ cfg.opponents then some .NO_BOT
    else if is_bot = false ∧ "human" ∉ cfg.opponents then some .ONLY_BOT
    else if e.speed ∉ cfg.time_controls then some .TIME_CONTROL
    else if e.tcLimit < cfg.min_initial ∨ e.tcIncrement < cfg.min_increment then
      some .TOO_FAST
    else if e.tcLimit > cfg.max_initial ∨ e.tcIncrement > cfg.max_increment then
      some .TOO_SLOW
    else if e.rated = true then
      match my_rating, their_rating with
      | some m, some t =>
        if |m - t| > (if is_bot then cfg.max_bot_rating_diff
                      else cfg.max_human_rating_diff)
        then some .GENERIC else none
      | _, _ => none
    else none

/-! ## lichess.py: request retry policy and the decline endpoint -/

/-- Source `lichess.py` lines 25-27 and 35-37: the retry predicate of the
`backoff.on_predicate` decorator on `Lichess.get` and `Lichess.post`:
`lambda response: response.status_code >= 500`.  A response is retried
exactly when this predicate holds. -/
def backoff_retry_pred (status_code : ℕ) : Bool := 500 ≤ status_code

/-- Source `Lichess.get` / `Lichess.post` under their `backoff.on_predicate`
decorator: the underlying request is re-issued while the retry predicate
holds on the status code, with exponential backoff bounded by
`max_time=300` seconds (which bounds the number of attempts; the bound shows
up here as the `attempts` list being finite).  `attempts` lists the status
codes of the successive attempts; if the time budget runs out the last
response seen (`last`) is returned to the caller, otherwise the first
response that the predicate does not flag is returned. -/
def request_with_backoff : List ℕ → ℕ → ℕ
  | [], last => last
  | r :: rest, _ => if backoff_retry_pred r then request_with_backoff rest r else r

/-- An HTTP POST as issued by the server client: path plus form data. -/
structure HttpPost where
  path : String
  form : List (String × String)
deriving DecidableEq, Repr

/-- Source `Lichess.decline_challenge` (lichess.py lines 102-108): it posts to
`/api/challenge/{challenge_id}/decline` with no body and no query
parameters, so the request carries no decline reason. -/
def decline_challenge_request (challenge_id : String) : HttpPost :=
  { path := "/api/challenge/" ++ challenge_id ++ "/decline", form := [] }

/-- Parameter names of `Lichess.decline_challenge` besides `self`, from its
source signature `async def decline_challenge(self, challenge_id: str)`. -/
def decline_challenge_params : List String := ["challenge_id"]

/-- The call `await self.li.decline_challenge(challenge_id, reason=decline_reason)`
made by `GameManager.on_challenge` (game_manager.py line 118): Python raises
`TypeError` when a keyword argument does not match any parameter of the
callee, so the call only goes through when `decline_challenge` has a
`reason` parameter; otherwise no request is posted at all. -/
def on_challenge_decline_call (challenge_id : String) : Except String HttpPost :=
  if "reason" ∈ decline_challenge_params then
    .ok (decline_challenge_request challenge_id)
  else
    .error "TypeError"

/-- The decline reason visible to the server for a posted decline request:
the value of the `reason` form field, if any. -/
def posted_reason (p : HttpPost) : Option String :=
  (p.form.find? (fun kv => kv.1 == "reason")).map (fun kv => kv.2)

/-! ## matchmaker.py -/

/-- One line of the `/api/bot/online` response, as read by
`Matchmaker.challenge`. -/
structure BotListEntry where
  username : String
  disabled : Bool
  tosViolation : Bool
deriving DecidableEq, Repr

/-- Source `Matchmaker.challenge` (matchmaker.py lines 60-91), up to the point
where an opponent is selected.  The list comprehension filters out disabled
and TOS-violating accounts; `me = next(bot for bot in bots if bot.name ==
self.li.username)` raises `StopIteration` when the bot itself is absent from
the filtered list.  The shuffle and the `should_challenge` scan are
abstracted by `pick`, which returns the first qualifying opponent of the
shuffled candidate list, if any.  The result is the list of opponents
challenged (`create_challenge` calls), or an error when an exception
escapes the coroutine. -/
def matchmaker_challenge (enabled : Bool) (infos : List BotListEntry)
    (username : String) (pick : List String → Option String) :
    Except String (List String) :=
  if ¬ enabled then .ok []
  else
    let bots := (infos.filter (fun i => !i.disabled && !i.tosViolation)).map
      (fun i => i.username)
    match bots.find? (fun b => b == username) with
    | none => .error "StopIteration"
    | some _ =>
      match pick bots with
      | some opp => .ok [opp]
      | none => .ok []

/-! ## game_manager.py: the account-stream reactor -/

/-- Configuration the game manager reads: `CONFIG["concurrency"]`, the bot's
own username (`self.li.username`) and the challenge section. -/
structure ManagerConfig where
  concurrency : ℕ
  username : String
  challenge : ChallengeConfig
deriving DecidableEq, Repr

/-- The mutable state of `GameManager`: the keys of `self.current_games`
(the games table) and `self.challenge_queue` (front of the deque first).
`last_event_time` and the `Game` objects themselves are irrelevant to the
claims modelled here and are omitted. -/
structure ManagerState where
  current_games : List String
  challenge_queue : List String
deriving DecidableEq, Repr

/-- The requests a game-manager event handler sends to the server. -/
inductive ManagerAction where
  | acceptChallenge (id : String)
  | declineChallenge (id : String) (reason : DeclineReason)
  | abortGame (id : String)
deriving DecidableEq, Repr

/-- The account-stream events dispatched by `GameManager.watch_event_stream`.
A `ping` carries the ids of games whose `loop_task` is already done (an
environment observation the handler makes); `challengeDeclined` matches no
branch of the dispatcher and is ignored. -/
inductive AccountEvent where
  | ping (doneIds : List String)
  | gameStart (id : String)
  | gameFinish (id : String)
  | challenge (e : ChallengeEvent)
  | challengeCanceled (id : String)
  | challengeDeclined
deriving DecidableEq, Repr

/-- Source `GameManager.is_under_concurrency_limit` (game_manager.py lines
140-141): `len(self.current_games) < CONFIG["concurrency"]`. -/
def is_under_concurrency_limit (cfg : ManagerConfig) (s : ManagerState) : Bool :=
  s.current_games.length < cfg.concurrency

/-- The queue-servicing tail shared by `on_ping` and `on_game_finish`:
`if self.is_under_concurrency_limit() and self.challenge_queue:
await self.li.accept_challenge(self.challenge_queue.popleft())`. -/
def service_queue (cfg : ManagerConfig) (s : ManagerState) :
    ManagerState × List ManagerAction :=
  match s.challenge_queue with
  | [] => (s, [])
  | c :: rest =>
    if is_under_concurrency_limit cfg s then
      ({ s with challenge_queue := rest }, [.acceptChallenge c])
    else (s, [])

/-- Source `GameManager.on_ping` (game_manager.py lines 43-60): drop games
whose loop task is done, then service the queue if capacity remains.
The matchmaking trigger touches neither the table nor the queue and issues
none of the modelled actions, so it is not represented. -/
def on_ping (cfg : ManagerConfig) (s : ManagerState) (doneIds : List String) :
    ManagerState × List ManagerAction :=
  service_queue cfg
    { s with current_games := s.current_games.filter (fun g => g ∉ doneIds) }

/-- Source `GameManager.on_game_start` (game_manager.py lines 62-82). -/
def on_game_start (cfg : ManagerConfig) (s : ManagerState) (id : String) :
    ManagerState × List ManagerAction :=
  if id ∈ s.current_games then (s, [])
  else if ¬ is_under_concurrency_limit cfg s then (s, [.abortGame id])
  else ({ s with current_games := s.current_games ++ [id] }, [])

/-- Source `GameManager.on_game_finish` (game_manager.py lines 84-96): pop the
game if tracked (popping an absent key is a no-op because of the `in`
guard, which `List.erase` reproduces), then service the queue. -/
def on_game_finish (cfg : ManagerConfig) (s : ManagerState) (id : String) :
    ManagerState × List ManagerAction :=
  service_queue cfg { s with current_games := s.current_games.erase id }

/-- Source `GameManager.on_challenge` (game_manager.py lines 98-128).  The
decline branch records the call as made, carrying the computed reason. -/
def on_challenge (cfg : ManagerConfig) (s : ManagerState) (e : ChallengeEvent) :
    ManagerState × List ManagerAction :=
  if e.id ∈ s.challenge_queue then (s, [])
  else
    let challenger_name := match e.challenger with
      | some c => c.name
      | none => "Anonymous"
    if challenger_name = cfg.username then (s, [])
    else match check_decline_reason cfg.challenge e with
    | some r => (s, [.declineChallenge e.id r])
    | none =>
      if is_under_concurrency_limit cfg s then (s, [.acceptChallenge e.id])
      else ({ s with challenge_queue := s.challenge_queue ++ [e.id] }, [])

/-- Source `GameManager.on_challenge_canceled` (game_manager.py lines 130-138):
remove the id from the queue if present (`deque.remove` removes the first
occurrence; the `in` guard makes the absent case a no-op, which
`List.erase` reproduces). -/
def on_challenge_canceled (s : ManagerState) (id : String) :
    ManagerState × List ManagerAction :=
  ({ s with challenge_queue := s.challenge_queue.erase id }, [])

/-- Source `GameManager.watch_event_stream` (game_manager.py lines 24-41):
dispatch one account-stream event. -/
def manager_step (cfg : ManagerConfig) (s : ManagerState) :
    AccountEvent → ManagerState × List ManagerAction
  | .ping doneIds => on_ping cfg s doneIds
  | .gameStart id => on_game_start cfg s id
  | .gameFinish id => on_game_finish cfg s id
  | .challenge e => on_challenge cfg s e
  | .challengeCanceled id => on_challenge_canceled s id
  | .challengeDeclined => (s, [])

/-- Process a sequence of account-stream events in arrival order, collecting
the requests sent. -/
def manager_run (cfg : ManagerConfig) :
    ManagerState → List AccountEvent → ManagerState × List ManagerAction
  | s, [] => (s, [])
  | s, e :: es =>
    let p := manager_step cfg s e
    let q := manager_run cfg p.1 es
    (q.1, p.2 ++ q.2)

/-! ## game.py: per-game state and the stream-consuming loop -/

/-- The clock dictionary `Game.clock`.  The Python values are floats obtained
by dividing server milliseconds by 1000; they are modelled as rationals
(the claims here concern only which fields are written, not rounding). -/
structure Clock where
  white_clock : ℚ
  black_clock : ℚ
  white_inc : ℚ
  black_inc : ℚ
deriving DecidableEq, Repr

/-- The fields of a `gameState` event (or the `state` member of a `gameFull`
event) that `Game.update` reads.  `moves` is `event["moves"].split()`; the
status string has already been mapped through the `GameStatus` enum. -/
structure GameStateEvent where
  status : GameStatus
  wtime : ℚ
  btime : ℚ
  winc : ℚ
  binc : ℚ
  moves : List String
deriving DecidableEq, Repr

/-- The per-game state of `Game` relevant to the loop: own color, the side to
move in the game's initial position, the last server-reported status, the
clock, and the board's move stack (`make_board(moves)` replays `moves` onto
a fresh board, so the move stack equals the replayed list; the derived
position is determined by it and the fixed initial position). -/
structure Game where
  color_white : Bool
  white_to_move_initially : Bool
  status : GameStatus
  clock : Clock
  board_moves : List String
deriving DecidableEq, Repr

/-- The side to move on the board: the initial side flipped once per played
move (`chess.Board.turn` after replaying the move stack). -/
def Game.turn_white (g : Game) : Bool :=
  if g.board_moves.length % 2 = 0 then g.white_to_move_initially
  else !g.white_to_move_initially

/-- Source `Game.is_our_turn` (game.py lines 54-56). -/
def Game.is_our_turn (g : Game) : Bool := g.color_white == g.turn_white

/-- Source `Game.is_game_over` (game.py lines 58-60):
`self.status not in (GameStatus.STARTED, GameStatus.CREATED)`. -/
def Game.is_game_over (g : Game) : Bool :=
  !(g.status == .STARTED || g.status == .CREATED)

/-- Source `Game.update` (game.py lines 69-84): overwrite status and the four
clock fields, then compare the incoming move-list length with the move
stack; only when it is strictly longer is the board rebuilt.  Returns the
Python return value paired with the updated game. -/
def Game.update (g : Game) (e : GameStateEvent) : Bool × Game :=
  let g1 : Game :=
    { g with
      status := e.status
      clock :=
        { white_clock := e.wtime / 1000
          black_clock := e.btime / 1000
          white_inc := e.winc / 1000
          black_inc := e.binc / 1000 } }
  if e.moves.length ≤ g1.board_moves.length then (false, g1)
  else (true, { g1 with board_moves := e.moves })

/-- The per-game stream events dispatched by `Game.watch_game_stream`.  A
`ping` carries whether `time.monotonic() - start_time >= CONFIG["abort_time"]`
held when it was handled; an `opponentGone` carries whether
`event.get("claimWinInSeconds") == 0`. -/
inductive GameEvent where
  | gameFull (state : GameStateEvent)
  | gameState (e : GameStateEvent)
  | opponentGone (claimWinNow : Bool)
  | chatLine
  | ping (abortTimeElapsed : Bool)
deriving DecidableEq, Repr

/-- The requests a game loop sends to the server. -/
inductive GameAction where
  | claimVictory
  | abortGame
  | makeMove
  | resignGame
deriving DecidableEq, Repr

/-- Outcome of the search phase of one `Game.make_move` task, abstracting the
book lookup and the engine call (their choice depends on configuration,
books and the engine, all external to the loop's control flow):
a book move found, a successful engine search (with the resign decision of
`should_resign`), an `EngineTerminatedError`, or any other exception (such
as the `RuntimeError` raised when the engine returns no move). -/
inductive MoveResult where
  | book
  | engine (resign : Bool)
  | engineTerminated
  | engineError
deriving DecidableEq, Repr

/-- Effects of one `Game.make_move` task (game.py lines 251-298), executed at
a point where `is_game_over` is false (tasks are only created while the
loop has not observed a terminal status, and their submission runs before
the loop processes further events): the requests sent, paired with whether
the task raised an exception (stored in the task and re-raised at the next
`asyncio.gather`). -/
def make_move_effects : MoveResult → List GameAction × Bool
  | .book => ([.makeMove], false)
  | .engine resign => if resign then ([.resignGame], false) else ([.makeMove], false)
  | .engineTerminated => ([.resignGame], true)
  | .engineError => ([], true)

/-- Processing of one stream event by the body of `Game.watch_game_stream`
(game.py lines 307-329), before the terminal-status check: the updated
game, the `should_make_move` flag, and the requests sent directly by the
event handler. -/
def process_event (g : Game) : GameEvent → Game × Bool × List GameAction
  | .gameFull st =>
    let u := g.update st
    (u.2, u.2.is_our_turn, [])
  | .gameState e =>
    let u := g.update e
    (u.2, u.1 && u.2.is_our_turn, [])
  | .opponentGone claimWinNow =>
    (g, false, if claimWinNow && !g.is_our_turn then [.claimVictory] else [])
  | .ping abortTimeElapsed =>
    (g, false,
      if decide (g.board_moves.length < 2) && !g.is_our_turn && abortTimeElapsed
      then [.abortGame] else [])
  | .chatLine => (g, false, [])

/-- Result of one execution of `Game.watch_game_stream`: the final game, the
trace of requests sent (each tagged with whether `is_game_over` held when
it was sent), how many times `engine.quit()` ran, and whether the coroutine
exited with an exception. -/
structure LoopResult where
  game : Game
  actions : List (GameAction × Bool)
  engine_quits : ℕ
  raised : Bool
deriving DecidableEq, Repr

/-- Source `Game.watch_game_stream` lines 339-344, reached when the stream
ends or the loop breaks on a terminal status: force `UNKNOWN_FINISH` if the
status is still non-terminal, run `await self.engine.quit()` once, then
gather the move tasks, which re-raises any stored move-task exception
(after the quit). -/
def finish_loop (g : Game) (pendingErr : Bool) (tr : List (GameAction × Bool)) :
    LoopResult :=
  let g1 := if ¬ g.is_game_over then { g with status := .UNKNOWN_FINISH } else g
  { game := g1, actions := tr, engine_quits := 1, raised := pendingErr }

/-- Source `Game.watch_game_stream` (game.py lines 303-344), sequentialized:
each event is processed in order; when the updated status is terminal the
loop breaks; otherwise, when a move is triggered, `await
asyncio.gather(*move_tasks)` first re-raises any exception stored in an
earlier move task — exiting the coroutine without running `engine.quit()`,
which is not in a `finally` block — and then a new move task is created,
whose search outcome is `oracle k` for the k-th task and whose requests are
sent while the loop awaits the next stream event. -/
def watch_game_stream (oracle : ℕ → MoveResult) :
    Game → List GameEvent → ℕ → Bool → List (GameAction × Bool) → LoopResult
  | g, [], _, pendingErr, tr => finish_loop g pendingErr tr
  | g, ev :: evs, k, pendingErr, tr =>
    let p := process_event g ev
    let g1 := p.1
    let tr1 := tr ++ p.2.2.map (fun a => (a, g1.is_game_over))
    if g1.is_game_over then finish_loop g1 pendingErr tr1
    else if p.2.1 then
      if pendingErr then
        { game := g1, actions := tr1, engine_quits := 0, raised := true }
      else
        let eff := make_move_effects (oracle k)
        watch_game_stream oracle g1 evs (k + 1) eff.2
          (tr1 ++ eff.1.map (fun a => (a, g1.is_game_over)))
    else watch_game_stream oracle g1 evs k pendingErr tr1

/-- One full execution of the game loop on a finite stream of events. -/
def run_game_loop (oracle : ℕ → MoveResult) (g : Game) (events : List GameEvent) :
    LoopResult :=
  watch_game_stream oracle g events 0 false []

/-! ## game.py: opening-book lookup -/

/-- The board as the book lookup sees it: positions are abstract keys (two
boards with the same key transpose to the same position); `history` lists
the earlier positions of the game that repetition detection can reach
(most recent first). -/
structure BookBoard where
  current : ℕ
  history : List ℕ
deriving DecidableEq, Repr

/-- `board.push(move)`: play a move, `apply` being the abstract successor
function on position keys. -/
def BookBoard.push (apply : ℕ → ℕ → ℕ) (b : BookBoard) (mv : ℕ) : BookBoard :=
  ⟨apply b.current mv, b.current :: b.history⟩

/-- `chess.Board.is_repetition(count)`: the current position has occurred at
least `count` times, the current occurrence included. -/
def BookBoard.is_repetition (b : BookBoard) (count : ℕ) : Bool :=
  count ≤ (b.current :: b.history).count b.current

/-- Source `Game.get_book_move` (game.py lines 190-215): for each configured
book in order, look up the selected candidate move for the current position
(`none` models the `IndexError` of an empty book entry, caught by the
`continue`); push it, and if the resulting position is not a repetition
with `count=2`, return it; otherwise pop it and fall through to the next
book.  Each book's selected candidate (`weighted_choice` / `choice` /
`find`, per the configured selection) is abstracted as a function from the
position key to an optional move. -/
def get_book_move (apply : ℕ → ℕ → ℕ) :
    List (ℕ → Option ℕ) → BookBoard → Option ℕ
  | [], _ => none
  | book :: rest, b =>
    match book b.current with
    | none => get_book_move apply rest b
    | some mv =>
      if (b.push apply mv).is_repetition 2 then get_book_move apply rest b
      else some mv

/-! ## Concrete instances used in witnesses and counterexamples -/

/-- A book position-key successor in which the move encodes the resulting
position key (sufficient to realize any single push). -/
def applyKey : ℕ → ℕ → ℕ := fun _ mv => mv

/-- A single book whose selected candidate, in every position, leads to
position 5. -/
def booksToFive : List (ℕ → Option ℕ) := [fun _ => some 5]

/-- A board whose current position is 10 and which visited position 5 one
reversible ply earlier. -/
def boardAfterFive : BookBoard := ⟨10, [5]⟩

/-- A challenge configuration that accepts only casual games (and otherwise
everything): the acceptance policy computes a specific decline reason for a
rated challenge. -/
def casualOnlyConfig : ChallengeConfig :=
  { enabled := true
    modes := ["casual"]
    opponents := ["bot", "human"]
    variants := ["standard"]
    time_controls := ["blitz"]
    min_increment := 0
    max_increment := 180
    min_initial := 0
    max_initial := 315360000
    max_bot_rating_diff := 4000
    max_human_rating_diff := 4000 }

/-- A rated incoming challenge, which `casualOnlyConfig` declines with the
specific reason `casual`. -/
def ratedChallengeEvent : ChallengeEvent :=
  { id := "abcd1234"
    challenger := some { name := "SomeBot", title := "BOT", rating := some 2000 }
    destUser := some { rating := some 2000 }
    rated := true
    variantKey := "standard"
    speed := "blitz"
    tcLimit := 180
    tcIncrement := 2 }

/-- Manager configuration used in concrete witnesses: concurrency limit 1. -/
def mgrCfg : ManagerConfig :=
  { concurrency := 1, username := "me", challenge := casualOnlyConfig }

/-- A move oracle whose every search finds a book move. -/
def bookOracle : ℕ → MoveResult := fun _ => MoveResult.book

/-- A move oracle whose every search raises (e.g. the engine fails to
produce a move). -/
def engineErrOracle : ℕ → MoveResult := fun _ => MoveResult.engineError

/-- A game as constructed from a `gameStart` event for a standard game as
White, before any state notification. -/
def startedGame : Game :=
  { color_white := true
    white_to_move_initially := true
    status := .STARTED
    clock := { white_clock := 0, black_clock := 0, white_inc := 0, black_inc := 0 }
    board_moves := [] }

/-- Two incremental state notifications, each putting White (us) on move. -/
def twoMoveEvents : List GameEvent :=
  [.gameState ⟨.STARTED, 60000, 60000, 1000, 1000, ["e2e4", "e7e5"]⟩,
   .gameState ⟨.STARTED, 59000, 59000, 1000, 1000,
     ["e2e4", "e7e5", "g1f3", "b8c6"]⟩]

/-! ## Theorems -/

/-- C4: an incremental `gameState` notification whose move-list length is at
most the number of recorded moves makes `Game.update` return `False`,
leaves the board unchanged, and the loop consequently computes
`should_make_move = false` and sends no request for this event, so no move
task is started. -/
theorem claim4_duplicate_notification_noop (g : Game) (e : GameStateEvent)
    (h : e.moves.length ≤ g.board_moves.length) :
    (g.update e).1 = false ∧
    (g.update e).2.board_moves = g.board_moves ∧
    (process_event g (.gameState e)).2.1 = false ∧
    (process_event g (.gameState e)).2.2 = [] := by
  have hu : g.update e =
      (false,
        { g with
          status := e.status
          clock :=
            { white_clock := e.wtime / 1000
              black_clock := e.btime / 1000
              white_inc := e.winc / 1000
              black_inc := e.binc / 1000 } }) := by
    simp [Game.update, h]
  refine ⟨by simp [hu], by simp [hu], ?_, ?_⟩ <;> simp [process_event, hu]

/-- C4 witness: a game with one recorded move receiving a notification
repeating that single move. -/
theorem claim4_duplicate_notification_noop_witness :
    ((⟨true, true, .STARTED, ⟨0, 0, 0, 0⟩, ["e2e4"]⟩ : Game).update
        ⟨.STARTED, 0, 0, 0, 0, ["e2e4"]⟩).1 = false ∧
    ((⟨true, true, .STARTED, ⟨0, 0, 0, 0⟩, ["e2e4"]⟩ : Game).update
        ⟨.STARTED, 0, 0, 0, 0, ["e2e4"]⟩).2.board_moves = ["e2e4"] ∧
    (process_event ⟨true, true, .STARTED, ⟨0, 0, 0, 0⟩, ["e2e4"]⟩
        (.gameState ⟨.STARTED, 0, 0, 0, 0, ["e2e4"]⟩)).2.1 = false ∧
    (process_event ⟨true, true, .STARTED, ⟨0, 0, 0, 0⟩, ["e2e4"]⟩
        (.gameState ⟨.STARTED, 0, 0, 0, 0, ["e2e4"]⟩)).2.2 = [] :=
  claim4_duplicate_notification_noop _ _ (by decide)

/-- C10: `Game.update` unconditionally overwrites the status and all four
clock fields from the event, even when it returns `False` (in which case
the board is untouched). -/
theorem claim10_update_refreshes_status_and_clocks (g : Game) (e : GameStateEvent) :
    (g.update e).2.status = e.status ∧
    (g.update e).2.clock =
      ⟨e.wtime / 1000, e.btime / 1000, e.winc / 1000, e.binc / 1000⟩ ∧
    ((g.update e).1 = false → (g.update e).2.board_moves = g.board_moves) := by
  by_cases h : e.moves.length ≤ g.board_moves.length <;> simp [Game.update, h]

/-- C10 witness: a duplicate notification still refreshes status and clocks. -/
theorem claim10_update_refreshes_status_and_clocks_witness :
    ((⟨true, true, .STARTED, ⟨0, 0, 0, 0⟩, ["e2e4"]⟩ : Game).update
        ⟨.DRAW, 61000, 59000, 1000, 2000, ["e2e4"]⟩).2.status = .DRAW ∧
    ((⟨true, true, .STARTED, ⟨0, 0, 0, 0⟩, ["e2e4"]⟩ : Game).update
        ⟨.DRAW, 61000, 59000, 1000, 2000, ["e2e4"]⟩).2.clock =
      ⟨61000 / 1000, 59000 / 1000, 1000 / 1000, 2000 / 1000⟩ ∧
    ((⟨true, true, .STARTED, ⟨0, 0, 0, 0⟩, ["e2e4"]⟩ : Game).update
        ⟨.DRAW, 61000, 59000, 1000, 2000, ["e2e4"]⟩).2.board_moves = ["e2e4"] := by
  have h := claim10_update_refreshes_status_and_clocks
    ⟨true, true, .STARTED, ⟨0, 0, 0, 0⟩, ["e2e4"]⟩
    ⟨.DRAW, 61000, 59000, 1000, 2000, ["e2e4"]⟩
  exact ⟨h.1, h.2.1, h.2.2 (by decide)⟩

/-- C5 counterexample: from `boardAfterFive` the candidate book move leads
back to position 5, whose resulting occurrence count is exactly 2 — only a
second occurrence, which the claim says is played as-is.  The code instead
rejects it (`is_repetition(count=2)` already holds at two occurrences) and,
with no further book configured, returns no book move. -/
theorem claim5_counterexample :
    (((boardAfterFive.push applyKey 5).current ::
        (boardAfterFive.push applyKey 5).history).count
      (boardAfterFive.push applyKey 5).current = 2) ∧
    get_book_move applyKey booksToFive boardAfterFive = none := by
  constructor <;> rfl

/-- Playing a move makes `is_repetition(count=2)` hold on the resulting board
exactly when the resulting position has occurred before. -/
lemma is_repetition_two_iff (apply : ℕ → ℕ → ℕ) (b : BookBoard) (mv : ℕ) :
    (b.push apply mv).is_repetition 2 = true ↔
      apply b.current mv ∈ b.current :: b.history := by
  constructor
  · intro h
    have h2 : 2 ≤ (apply b.current mv :: b.current :: b.history).count
        (apply b.current mv) := of_decide_eq_true h
    rw [List.count_cons_self] at h2
    exact List.count_pos_iff.mp (by omega)
  · intro h
    have h2 : 0 < (b.current :: b.history).count (apply b.current mv) :=
      List.count_pos_iff.mpr h
    refine decide_eq_true ?_
    show 2 ≤ (apply b.current mv :: b.current :: b.history).count
      (apply b.current mv)
    rw [List.count_cons_self]
    omega

/-- C5 amended: a candidate book move is rejected exactly when playing it
would make the resulting position a second (or later) occurrence, i.e.
when the resulting position has already occurred; on rejection the next
configured book source is tried in order, and a move whose resulting
position is a first occurrence is played as-is. -/
theorem claim5_amended_book_rejection (apply : ℕ → ℕ → ℕ)
    (book : ℕ → Option ℕ) (rest : List (ℕ → Option ℕ)) (b : BookBoard) (mv : ℕ)
    (h : book b.current = some mv) :
    ((b.push apply mv).is_repetition 2 = true ↔
      apply b.current mv ∈ b.current :: b.history) ∧
    ((b.push apply mv).is_repetition 2 = true →
      get_book_move apply (book :: rest) b = get_book_move apply rest b) ∧
    ((b.push apply mv).is_repetition 2 = false →
      get_book_move apply (book :: rest) b = some mv) := by
  refine ⟨is_repetition_two_iff apply b mv, ?_, ?_⟩
  · intro hrep
    simp [get_book_move, h, hrep]
  · intro hrep
    simp [get_book_move, h, hrep]

/-- C5 amended witness: in `boardAfterFive` the move to position 5 is a
repeat and is rejected in favour of the (empty) remaining book list, while
a move to the fresh position 7 is played as-is. -/
theorem claim5_amended_book_rejection_witness :
    ((boardAfterFive.push applyKey 5).is_repetition 2 = true ↔
      applyKey boardAfterFive.current 5 ∈
        boardAfterFive.current :: boardAfterFive.history) ∧
    (get_book_move applyKey booksToFive boardAfterFive =
      get_book_move applyKey [] boardAfterFive) ∧
    (get_book_move applyKey [fun _ => some 7] boardAfterFive = some 7) := by
  refine ⟨(claim5_amended_book_rejection applyKey (fun _ => some 5) []
      boardAfterFive 5 rfl).1,
    (claim5_amended_book_rejection applyKey (fun _ => some 5) []
      boardAfterFive 5 rfl).2.1 (by decide),
    (claim5_amended_book_rejection applyKey (fun _ => some 7) []
      boardAfterFive 7 rfl).2.2 (by decide)⟩

/-- C6 counterexample: a rate-limited attempt followed by a successful retry
would yield 200 under the claim; the code's retry predicate
(`status_code >= 500`) does not flag 429, so the rate-limit response is
returned to the caller immediately and no retry happens. -/
theorem claim6_counterexample : request_with_backoff [429, 200] 0 = 429 := rfl

/-- C6 amended: `Lichess.get`/`Lichess.post` retry exactly the responses with
status ≥ 500 (with exponential backoff bounded by 300 seconds of total
elapsed time); any other response — in particular a 429 rate-limit — is
returned to the caller at once, without a cooldown or retry. -/
theorem claim6_amended_retry_policy :
    (∀ rest last, request_with_backoff (429 :: rest) last = 429) ∧
    (∀ r rest last, 500 ≤ r →
      request_with_backoff (r :: rest) last = request_with_backoff rest r) ∧
    (∀ r rest last, r < 500 → request_with_backoff (r :: rest) last = r) := by
  refine ⟨fun rest last => by simp [request_with_backoff, backoff_retry_pred],
    fun r rest last h => by simp [request_with_backoff, backoff_retry_pred, h],
    fun r rest last h => by
      simp [request_with_backoff, backoff_retry_pred, Nat.not_le.mpr h]⟩

/-- C6 amended witness: 429 is returned at once even when a retry would
succeed; a 503 is retried and the subsequent 200 is returned. -/
theorem claim6_amended_retry_policy_witness :
    request_with_backoff [429, 200] 0 = 429 ∧
    request_with_backoff [503, 200] 0 = request_with_backoff [200] 503 ∧
    request_with_backoff [200] 503 = 200 := by
  refine ⟨claim6_amended_retry_policy.1 [200] 0,
    claim6_amended_retry_policy.2.1 503 [200] 0 (by decide),
    claim6_amended_retry_policy.2.2 200 [] 503 (by decide)⟩

/-- C7: at an input the acceptance policy rejects with the specific reason
`casual`, yet the decline call cannot transmit it: `GameManager.on_challenge`
passes `reason=...` to `Lichess.decline_challenge`, whose signature has no
such parameter, so the call raises `TypeError`; and the request
`decline_challenge` would post carries no `reason` field at all, so the
server-visible decline reason cannot equal the computed one. -/
theorem claim7_decline_reason_dropped :
    check_decline_reason casualOnlyConfig ratedChallengeEvent =
      some DeclineReason.CASUAL ∧
    DeclineReason.CASUAL.code = "casual" ∧
    on_challenge_decline_call ratedChallengeEvent.id = .error "TypeError" ∧
    posted_reason (decline_challenge_request ratedChallengeEvent.id) = none := by
  refine ⟨by decide, rfl, rfl, rfl⟩

/-- C8: with the bot's own account absent from the filtered online-bots list,
`Matchmaker.challenge` does not return cleanly: `next(bot for bot in bots
if bot.name == self.li.username)` raises `StopIteration` (escalated to
`RuntimeError` by the coroutine machinery), so the attempt ends in an
exception — no challenge is issued, but contrary to the claim an error is
raised. -/
theorem claim8_absent_self_raises :
    matchmaker_challenge true [⟨"otherBot", false, false⟩] "myBot"
      (fun bots => bots.head?) = .error "StopIteration" := rfl

/-! ## Game manager lemmas -/

/-- Servicing the challenge queue never touches the games table. -/
lemma service_queue_games (cfg : ManagerConfig) (s : ManagerState) :
    (service_queue cfg s).1.current_games = s.current_games := by
  unfold service_queue
  cases s.challenge_queue with
  | nil => rfl
  | cons c rest => by_cases hu : is_under_concurrency_limit cfg s <;> simp [hu]

/-- Handling a challenge never touches the games table. -/
lemma on_challenge_games (cfg : ManagerConfig) (s : ManagerState)
    (e : ChallengeEvent) :
    (on_challenge cfg s e).1.current_games = s.current_games := by
  unfold on_challenge
  by_cases h1 : e.id ∈ s.challenge_queue
  · simp [h1]
  · simp only [h1, if_false, if_neg]
    split
    · rfl
    · split
      · rfl
      · split <;> rfl

/-- Every event handler keeps the games table at or below the concurrency
limit. -/
lemma manager_step_games_le (cfg : ManagerConfig) (s : ManagerState)
    (e : AccountEvent) (h : s.current_games.length ≤ cfg.concurrency) :
    (manager_step cfg s e).1.current_games.length ≤ cfg.concurrency := by
  cases e with
  | ping doneIds =>
    show (on_ping cfg s doneIds).1.current_games.length ≤ cfg.concurrency
    rw [on_ping, service_queue_games]
    exact le_trans (List.length_filter_le _ _) h
  | gameStart id =>
    show (on_game_start cfg s id).1.current_games.length ≤ cfg.concurrency
    unfold on_game_start
    split
    · exact h
    · split
      · exact h
      · rename_i hunder
        have h2 : s.current_games.length < cfg.concurrency := by
          have := not_not.mp hunder
          simpa [is_under_concurrency_limit] using this
        simpa using h2
  | gameFinish id =>
    show (on_game_finish cfg s id).1.current_games.length ≤ cfg.concurrency
    rw [on_game_finish, service_queue_games]
    exact le_trans ((List.erase_sublist id s.current_games).length_le) h
  | challenge ce =>
    show (on_challenge cfg s ce).1.current_games.length ≤ cfg.concurrency
    rw [on_challenge_games]
    exact h
  | challengeCanceled id => exact h
  | challengeDeclined => exact h

/-- The concurrency bound is preserved along any event sequence. -/
lemma manager_run_games_le (cfg : ManagerConfig) (events : List AccountEvent) :
    ∀ s : ManagerState, s.current_games.length ≤ cfg.concurrency →
      (manager_run cfg s events).1.current_games.length ≤ cfg.concurrency := by
  induction events with
  | nil => intro s h; exact h
  | cons e es ih =>
    intro s h
    simp only [manager_run]
    exact ih _ (manager_step_games_le cfg s e h)

/-- C1: concurrency admission invariant.  Along every account-stream event
sequence the games table never exceeds `CONFIG["concurrency"]`, and a
`gameStart` for a new (untracked) game arriving while the table is at (or
beyond) the limit makes the handler send an immediate abort request for
that game and add no table entry. -/
theorem claim1_concurrency_invariant (cfg : ManagerConfig) :
    (∀ (s : ManagerState) (events : List AccountEvent),
      s.current_games.length ≤ cfg.concurrency →
      (manager_run cfg s events).1.current_games.length ≤ cfg.concurrency) ∧
    (∀ (s : ManagerState) (id : String), id ∉ s.current_games →
      cfg.concurrency ≤ s.current_games.length →
      manager_step cfg s (.gameStart id) = (s, [.abortGame id])) := by
  constructor
  · intro s events h
    exact manager_run_games_le cfg events s h
  · intro s id hmem hlim
    show on_game_start cfg s id = (s, [.abortGame id])
    have hu : ¬ is_under_concurrency_limit cfg s = true := by
      simp [is_under_concurrency_limit]
      omega
    simp [on_game_start, hmem, hu]

/-- C1 witness: from an empty state, two `gameStart` events and a ping leave
at most one tracked game; a second new game arriving at the limit is
aborted and not tracked. -/
theorem claim1_concurrency_invariant_witness :
    (manager_run mgrCfg ⟨[], []⟩
        [.gameStart "g1", .gameStart "g2", .ping []]).1.current_games.length ≤
      mgrCfg.concurrency ∧
    manager_step mgrCfg ⟨["g1"], []⟩ (.gameStart "g2") =
      (⟨["g1"], []⟩, [.abortGame "g2"]) :=
  ⟨(claim1_concurrency_invariant mgrCfg).1 ⟨[], []⟩ _ (by decide),
    (claim1_concurrency_invariant mgrCfg).2 ⟨["g1"], []⟩ "g2" (by decide) (by decide)⟩

/-- Servicing the queue preserves queue distinctness. -/
lemma service_queue_nodup (cfg : ManagerConfig) (s : ManagerState)
    (h : s.challenge_queue.Nodup) :
    (service_queue cfg s).1.challenge_queue.Nodup := by
  unfold service_queue
  cases hq : s.challenge_queue with
  | nil => simp [hq]
  | cons c rest =>
    rw [hq] at h
    by_cases hu : is_under_concurrency_limit cfg s <;> simp [hu, hq]
    · exact (List.nodup_cons.mp h).2
    · exact List.nodup_cons.mp h

/-- Every event handler preserves queue distinctness. -/
lemma manager_step_nodup (cfg : ManagerConfig) (s : ManagerState)
    (e : AccountEvent) (h : s.challenge_queue.Nodup) :
    (manager_step cfg s e).1.challenge_queue.Nodup := by
  cases e with
  | ping doneIds => exact service_queue_nodup cfg _ h
  | gameStart id =>
    show (on_game_start cfg s id).1.challenge_queue.Nodup
    unfold on_game_start
    split
    · exact h
    · split <;> [exact h; simpa using h]
  | gameFinish id => exact service_queue_nodup cfg _ h
  | challenge ce =>
    show (on_challenge cfg s ce).1.challenge_queue.Nodup
    unfold on_challenge
    by_cases h1 : ce.id ∈ s.challenge_queue
    · simpa [h1] using h
    · simp only [h1, if_false, if_neg]
      split
      · exact h
      · split
        · exact h
        · split
          · exact h
          · simp only []
            refine List.nodup_append.mpr ⟨h, List.nodup_singleton _, ?_⟩
            simpa using h1
  | challengeCanceled id =>
    show (on_challenge_canceled s id).1.challenge_queue.Nodup
    exact h.erase id
  | challengeDeclined => exact h

/-- Queue distinctness is preserved along any event sequence. -/
lemma manager_run_nodup (cfg : ManagerConfig) (events : List AccountEvent) :
    ∀ s : ManagerState, s.challenge_queue.Nodup →
      (manager_run cfg s events).1.challenge_queue.Nodup := by
  induction events with
  | nil => intro s h; exact h
  | cons e es ih =>
    intro s h
    simp only [manager_run]
    exact ih _ (manager_step_nodup cfg s e h)

/-- When queue servicing accepts a challenge, it is the queue's front element
and the queue loses exactly that front. -/
lemma service_queue_accept (cfg : ManagerConfig) (s : ManagerState) (id : String)
    (hacc : ManagerAction.acceptChallenge id ∈ (service_queue cfg s).2) :
    ∃ rest, s.challenge_queue = id :: rest ∧
      (service_queue cfg s).1.challenge_queue = rest := by
  unfold service_queue at hacc ⊢
  cases hq : s.challenge_queue with
  | nil => simp [hq] at hacc
  | cons c rest =>
    by_cases hu : is_under_concurrency_limit cfg s <;> simp [hu, hq] at hacc ⊢
    subst hacc
    exact rfl

/-- An accepted challenge that was sitting in the queue is always the front
of the queue, which is popped: queued challenges are serviced in arrival
order. -/
lemma manager_step_fifo (cfg : ManagerConfig) (s : ManagerState)
    (e : AccountEvent) (id : String) (hid : id ∈ s.challenge_queue)
    (hacc : ManagerAction.acceptChallenge id ∈ (manager_step cfg s e).2) :
    ∃ rest, s.challenge_queue = id :: rest ∧
      (manager_step cfg s e).1.challenge_queue = rest := by
  cases e with
  | ping doneIds =>
    have h := service_queue_accept cfg
      { s with current_games := s.current_games.filter (fun g => g ∉ doneIds) }
      id hacc
    exact h
  | gameStart gid =>
    exfalso
    revert hacc
    show ManagerAction.acceptChallenge id ∈ (on_game_start cfg s gid).2 → False
    unfold on_game_start
    split
    · simp
    · split <;> simp
  | gameFinish gid =>
    exact service_queue_accept cfg
      { s with current_games := s.current_games.erase gid } id hacc
  | challenge ce =>
    exfalso
    revert hacc
    show ManagerAction.acceptChallenge id ∈ (on_challenge cfg s ce).2 → False
    unfold on_challenge
    by_cases h1 : ce.id ∈ s.challenge_queue
    · simp [h1]
    · simp only [h1, if_false, if_neg]
      split
      · simp
      · split
        · simp
        · split
          · intro hmem
            have : id = ce.id := by simpa using hmem
            exact h1 (this ▸ hid)
          · simp
  | challengeCanceled cid => simp [manager_step, on_challenge_canceled] at hacc
  | challengeDeclined => simp [manager_step] at hacc

/-- Queue servicing neither emits an accept for an id outside the queue nor
inserts one into the queue. -/
lemma service_queue_no_accept (cfg : ManagerConfig) (s : ManagerState)
    (id : String) (hq : id ∉ s.challenge_queue) :
    ManagerAction.acceptChallenge id ∉ (service_queue cfg s).2 ∧
    id ∉ (service_queue cfg s).1.challenge_queue := by
  unfold service_queue
  cases hqe : s.challenge_queue with
  | nil => exact ⟨by simp, hq⟩
  | cons c rest =>
    have hq1 : id ≠ c := fun hh => hq (hqe ▸ (hh ▸ List.mem_cons_self c rest))
    have hq2 : id ∉ rest := fun hh => hq (hqe ▸ List.mem_cons_of_mem c hh)
    by_cases hu : is_under_concurrency_limit cfg s
    · refine ⟨?_, ?_⟩
      · intro hmem
        simp [hu] at hmem
        subst hmem
        exact hq1 rfl
      · intro hmem
        simp [hu] at hmem
        exact hq2 hmem
    · refine ⟨?_, ?_⟩
      · intro hmem
        simp [hu] at hmem
      · intro hmem
        simp [hu] at hmem
        exact hq hmem

/-- An id outside the queue, not re-challenged by this event, is neither
accepted by the event handler nor inserted into the queue. -/
lemma manager_step_no_accept (cfg : ManagerConfig) (s : ManagerState)
    (e : AccountEvent) (id : String) (hq : id ∉ s.challenge_queue)
    (he : ∀ ce : ChallengeEvent, e = .challenge ce → ce.id ≠ id) :
    ManagerAction.acceptChallenge id ∉ (manager_step cfg s e).2 ∧
    id ∉ (manager_step cfg s e).1.challenge_queue := by
  cases e with
  | ping doneIds => exact service_queue_no_accept cfg _ id hq
  | gameStart gid =>
    show ManagerAction.acceptChallenge id ∉ (on_game_start cfg s gid).2 ∧
      id ∉ (on_game_start cfg s gid).1.challenge_queue
    unfold on_game_start
    split
    · exact ⟨by simp, hq⟩
    · split
      · exact ⟨by simp, hq⟩
      · exact ⟨by simp, hq⟩
  | gameFinish gid => exact service_queue_no_accept cfg _ id hq
  | challenge ce =>
    have hne : ce.id ≠ id := he ce rfl
    show ManagerAction.acceptChallenge id ∉ (on_challenge cfg s ce).2 ∧
      id ∉ (on_challenge cfg s ce).1.challenge_queue
    unfold on_challenge
    by_cases h1 : ce.id ∈ s.challenge_queue
    · exact ⟨by simp [h1], by simpa [h1] using hq⟩
    · simp only [h1, if_false, if_neg]
      split
      · exact ⟨by simp, hq⟩
      · split
        · exact ⟨by simp, hq⟩
        · split
          · refine ⟨?_, hq⟩
            intro hmem
            simp at hmem
            subst hmem
            exact hne rfl
          · refine ⟨by simp, ?_⟩
            intro hmem
            rcases List.mem_append.mp hmem with h2 | h2
            · exact hq h2
            · simp at h2
              subst h2
              exact hne rfl
  | challengeCanceled cid =>
    refine ⟨by simp [manager_step, on_challenge_canceled], ?_⟩
    show id ∉ (on_challenge_canceled s cid).1.challenge_queue
    intro hmem
    exact hq ((List.erase_sublist cid s.challenge_queue).subset hmem)
  | challengeDeclined => exact ⟨by simp [manager_step], hq⟩

/-- An id removed from (or never in) the queue is never later accepted, and
never re-enters the queue, along any event sequence containing no new
challenge event with that id. -/
lemma manager_run_no_accept (cfg : ManagerConfig) (events : List AccountEvent) :
    ∀ (s : ManagerState) (id : String), id ∉ s.challenge_queue →
      (∀ e ∈ events, ∀ ce : ChallengeEvent, e = .challenge ce → ce.id ≠ id) →
      ManagerAction.acceptChallenge id ∉ (manager_run cfg s events).2 ∧
      id ∉ (manager_run cfg s events).1.challenge_queue := by
  induction events with
  | nil =>
    intro s id h _
    exact ⟨by simp [manager_run], h⟩
  | cons e es ih =>
    intro s id h hev
    have hstep := manager_step_no_accept cfg s e id h
      (fun ce hce => hev e (List.mem_cons_self e es) ce hce)
    have hrun := ih (manager_step cfg s e).1 id hstep.2
      (fun e2 he2 ce hce => hev e2 (List.mem_cons_of_mem _ he2) ce hce)
    refine ⟨?_, ?_⟩
    · simp only [manager_run]
      intro hmem
      rcases List.mem_append.mp hmem with h2 | h2
      · exact hstep.1 h2
      · exact hrun.1 h2
    · simp only [manager_run]
      exact hrun.2

/-- C9: the challenge queue is a duplicate-free FIFO.  Distinctness is
preserved along every event sequence; a `challengeCanceled` event removes
exactly its id from the queue, emits no request, and is a no-op when the
id is absent; an accept of a queued id always services the queue front,
popping it (arrival order); and an id out of the queue — in particular one
just canceled — is never later accepted nor re-queued unless a new
challenge event carries that id again. -/
theorem claim9_queue_fifo_no_dup_cancel (cfg : ManagerConfig) :
    (∀ (s : ManagerState) (events : List AccountEvent),
      s.challenge_queue.Nodup →
      (manager_run cfg s events).1.challenge_queue.Nodup) ∧
    (∀ (s : ManagerState) (id : String),
      (on_challenge_canceled s id).1.challenge_queue =
          s.challenge_queue.erase id ∧
        (on_challenge_canceled s id).2 = [] ∧
        (id ∉ s.challenge_queue → (on_challenge_canceled s id).1 = s)) ∧
    (∀ (s : ManagerState) (e : AccountEvent) (id : String),
      id ∈ s.challenge_queue →
      ManagerAction.acceptChallenge id ∈ (manager_step cfg s e).2 →
      ∃ rest, s.challenge_queue = id :: rest ∧
        (manager_step cfg s e).1.challenge_queue = rest) ∧
    (∀ (s : ManagerState) (events : List AccountEvent) (id : String),
      id ∉ s.challenge_queue →
      (∀ e ∈ events, ∀ ce : ChallengeEvent, e = .challenge ce → ce.id ≠ id) →
      ManagerAction.acceptChallenge id ∉ (manager_run cfg s events).2 ∧
      id ∉ (manager_run cfg s events).1.challenge_queue) := by
  refine ⟨fun s events h => manager_run_nodup cfg events s h,
    fun s id => ⟨rfl, rfl, fun h => ?_⟩,
    fun s e id hid hacc => manager_step_fifo cfg s e id hid hacc,
    fun s events id h hev => manager_run_no_accept cfg events s id h hev⟩
  simp [on_challenge_canceled, List.erase_of_not_mem h]

/-- C9 witness: concrete runs of each part at a queue holding `c1` then
`c2`. -/
theorem claim9_queue_fifo_no_dup_cancel_witness :
    (manager_run mgrCfg ⟨[], ["c1", "c2"]⟩
        [.ping [], .challengeCanceled "c2"]).1.challenge_queue.Nodup ∧
    ((on_challenge_canceled ⟨[], ["c1", "c2"]⟩ "c2").1.challenge_queue =
        ["c1", "c2"].erase "c2" ∧
      (on_challenge_canceled ⟨[], ["c1", "c2"]⟩ "z").1 =
        (⟨[], ["c1", "c2"]⟩ : ManagerState)) ∧
    (∃ rest, ["c1", "c2"] = "c1" :: rest ∧
      (manager_step mgrCfg ⟨[], ["c1", "c2"]⟩ (.ping [])).1.challenge_queue =
        rest) ∧
    (ManagerAction.acceptChallenge "c2" ∉
      (manager_run mgrCfg ⟨[], ["c1"]⟩ [.ping [], .gameFinish "g"]).2) := by
  refine ⟨(claim9_queue_fifo_no_dup_cancel mgrCfg).1 ⟨[], ["c1", "c2"]⟩ _
      (by decide),
    ⟨((claim9_queue_fifo_no_dup_cancel mgrCfg).2.1 ⟨[], ["c1", "c2"]⟩ "c2").1,
      ((claim9_queue_fifo_no_dup_cancel mgrCfg).2.1 ⟨[], ["c1", "c2"]⟩ "z").2.2
        (by decide)⟩,
    (claim9_queue_fifo_no_dup_cancel mgrCfg).2.2.1 ⟨[], ["c1", "c2"]⟩
      (.ping []) "c1" (by decide) (by decide),
    ((claim9_queue_fifo_no_dup_cancel mgrCfg).2.2.2 ⟨[], ["c1"]⟩
      [.ping [], .gameFinish "g"] "c2" (by decide) ?_).1⟩
  intro e he ce hce
  rcases List.mem_cons.mp he with rfl | he2
  · exact AccountEvent.noConfusion hce
  · rcases List.mem_cons.mp he2 with rfl | he3
    · exact AccountEvent.noConfusion hce
    · exact absurd he3 (List.not_mem_nil e)

/-! ## Game loop lemmas -/

/-- The finalization path always leaves a terminal status: either the loop
observed one, or `UNKNOWN_FINISH` is forced. -/
lemma finish_loop_over (g : Game) (pendingErr : Bool)
    (tr : List (GameAction × Bool)) :
    (finish_loop g pendingErr tr).game.is_game_over = true := by
  unfold finish_loop
  split
  · rfl
  · rename_i h
    simpa using h

/-- Any run of the game loop either ends with a terminal status or exits by
re-raising a move-task error. -/
lemma watch_over_or_raised (oracle : ℕ → MoveResult) (events : List GameEvent) :
    ∀ (g : Game) (k : ℕ) (pendingErr : Bool) (tr : List (GameAction × Bool)),
      (watch_game_stream oracle g events k pendingErr tr).game.is_game_over =
          true ∨
      (watch_game_stream oracle g events k pendingErr tr).raised = true := by
  induction events with
  | nil => intro g k pendingErr tr; exact .inl (finish_loop_over _ _ _)
  | cons ev evs ih =>
    intro g k pendingErr tr
    simp only [watch_game_stream]
    split
    · exact .inl (finish_loop_over _ _ _)
    · split
      · split
        · exact .inr rfl
        · exact ih _ _ _ _
      · exact ih _ _ _ _

/-- C2: when the game loop completes (without re-raising a move-task error),
the game's status is terminal — in particular, when the per-game stream
ends while the status is still non-terminal, the finalization forces it to
`UNKNOWN_FINISH`, so a completed loop with status `CREATED` or `STARTED`
is impossible. -/
theorem claim2_loop_ends_terminal (oracle : ℕ → MoveResult) (g : Game)
    (events : List GameEvent) :
    ((run_game_loop oracle g events).raised = false →
      (run_game_loop oracle g events).game.is_game_over = true) ∧
    (∀ (gEnd : Game) (pendingErr : Bool) (tr : List (GameAction × Bool)),
      gEnd.is_game_over = false →
      (finish_loop gEnd pendingErr tr).game.status =
        GameStatus.UNKNOWN_FINISH) := by
  constructor
  · intro h
    rw [run_game_loop] at h ⊢
    rcases watch_over_or_raised oracle events g 0 false [] with h1 | h1
    · exact h1
    · rw [h] at h1
      exact Bool.noConfusion h1
  · intro gEnd pendingErr tr h2
    simp [finish_loop, h2]

/-- C2 witness: a stream that ends immediately leaves the game terminal, and
finalizing a still-`STARTED` game forces `UNKNOWN_FINISH`. -/
theorem claim2_loop_ends_terminal_witness :
    (run_game_loop bookOracle startedGame []).game.is_game_over = true ∧
    (finish_loop startedGame false []).game.status =
      GameStatus.UNKNOWN_FINISH :=
  ⟨(claim2_loop_ends_terminal bookOracle startedGame []).1 (by decide),
    (claim2_loop_ends_terminal bookOracle startedGame []).2 startedGame false []
      (by decide)⟩

/-- C3 counterexample: the first move task raises during search; the second
state notification triggers a new move decision, whose `gather` re-raises
the stored error and exits the loop — `engine.quit()` (not in a `finally`
block) never runs, so the engine is terminated zero times on this exit
path, not exactly once. -/
theorem claim3_counterexample :
    (run_game_loop engineErrOracle startedGame twoMoveEvents).engine_quits = 0 ∧
    (run_game_loop engineErrOracle startedGame twoMoveEvents).raised = true :=
  ⟨rfl, rfl⟩

/-- Requests sent while handling a single stream event never include a move
submission (those come only from move tasks). -/
lemma process_event_no_makeMove (g : Game) (ev : GameEvent) :
    ∀ a ∈ (process_event g ev).2.2, a ≠ GameAction.makeMove := by
  cases ev with
  | gameFull st => simp [process_event]
  | gameState e => simp [process_event]
  | opponentGone c =>
    simp only [process_event]
    split <;> simp
  | chatLine => simp [process_event]
  | ping b =>
    simp only [process_event]
    split <;> simp

/-- Extending a trace with event-handler requests (under any tag) preserves
the absence of terminal-tagged move submissions. -/
lemma trace_ext_event (g : Game) (ev : GameEvent) (tag : Bool)
    (tr : List (GameAction × Bool))
    (htr : ∀ p ∈ tr, p.1 = GameAction.makeMove → p.2 = false) :
    ∀ p ∈ tr ++ (process_event g ev).2.2.map (fun a => (a, tag)),
      p.1 = GameAction.makeMove → p.2 = false := by
  intro p hp
  rcases List.mem_append.mp hp with h | h
  · exact htr p h
  · rcases List.mem_map.mp h with ⟨a, ha, rfl⟩
    intro hmk
    exact absurd hmk (process_event_no_makeMove g ev a ha)

/-- Extending a trace with requests tagged as sent before the game is over
preserves the absence of terminal-tagged move submissions. -/
lemma trace_ext_false (acts : List GameAction) (tr : List (GameAction × Bool))
    (htr : ∀ p ∈ tr, p.1 = GameAction.makeMove → p.2 = false) :
    ∀ p ∈ tr ++ acts.map (fun a => (a, false)),
      p.1 = GameAction.makeMove → p.2 = false := by
  intro p hp
  rcases List.mem_append.mp hp with h | h
  · exact htr p h
  · rcases List.mem_map.mp h with ⟨a, ha, rfl⟩
    intro _
    rfl

/-- Along any run of the game loop: every move submission in the trace is
tagged as sent while the status was non-terminal, and every exit path that
does not re-raise a move-task error runs `engine.quit()` exactly once. -/
lemma watch_actions_and_quits (oracle : ℕ → MoveResult) (events : List GameEvent) :
    ∀ (g : Game) (k : ℕ) (pendingErr : Bool) (tr : List (GameAction × Bool)),
      (∀ p ∈ tr, p.1 = GameAction.makeMove → p.2 = false) →
      (∀ p ∈ (watch_game_stream oracle g events k pendingErr tr).actions,
          p.1 = GameAction.makeMove → p.2 = false) ∧
      ((watch_game_stream oracle g events k pendingErr tr).raised = false →
        (watch_game_stream oracle g events k pendingErr tr).engine_quits = 1) := by
  induction events with
  | nil =>
    intro g k pendingErr tr htr
    exact ⟨htr, fun _ => rfl⟩
  | cons ev evs ih =>
    intro g k pendingErr tr htr
    simp only [watch_game_stream]
    split
    · exact ⟨trace_ext_event g ev _ tr htr, fun _ => rfl⟩
    · rename_i hover
      simp only [Bool.not_eq_true] at hover
      split
      · split
        · refine ⟨trace_ext_event g ev _ tr htr, fun h => ?_⟩
          exact Bool.noConfusion h
        · simp only [hover]
          exact ih _ _ _ _ (trace_ext_false _ _ (trace_ext_event g ev _ tr htr))
      · exact ih _ _ _ _ (trace_ext_event g ev _ tr htr)

/-- C3 amended: once a Game reaches a terminal status no further move
submissions occur (every submission in the loop's trace is made while the
status is non-terminal — after a terminal status the loop breaks at once,
and a move task that outlives the loop re-checks `is_game_over` before
submitting), and on every exit path on which the loop does not re-raise a
move-task error the engine process is terminated exactly once.  On the
exit path that re-raises an in-flight search error at the in-loop
`gather`, `engine.quit()` is skipped (it is not in a `finally` block). -/
theorem claim3_amended_terminal_closure (oracle : ℕ → MoveResult) (g : Game)
    (events : List GameEvent) :
    (∀ p ∈ (run_game_loop oracle g events).actions,
      p.1 = GameAction.makeMove → p.2 = false) ∧
    ((run_game_loop oracle g events).raised = false →
      (run_game_loop oracle g events).engine_quits = 1) :=
  watch_actions_and_quits oracle events g 0 false [] (by simp)

/-- C3 amended witness: a run with two triggered book moves submits both
before any terminal status and quits the engine exactly once. -/
theorem claim3_amended_terminal_closure_witness :
    (∀ p ∈ (run_game_loop bookOracle startedGame twoMoveEvents).actions,
      p.1 = GameAction.makeMove → p.2 = false) ∧
    (run_game_loop bookOracle startedGame twoMoveEvents).engine_quits = 1 :=
  ⟨(claim3_amended_terminal_closure bookOracle startedGame twoMoveEvents).1,
    (claim3_amended_terminal_closure bookOracle startedGame twoMoveEvents).2
      (by decide)⟩

end AsyncLio
